import Mathlib

/-
Verification development for the ian-weisser/weather repository.

The Python sources are shallowly embedded:
  * Python strings are Lean String values; string methods (split, strip,
    slicing, upper) are modelled character-exactly on the underlying
    character lists.
  * Python int values are Lean Int.  Python float values in the
    coordinate converter are modelled as IEEE-754 binary64 doubles:
    every float operation (literal conversion, division, addition) is
    the exact rational operation followed by fl64, rounding to the
    nearest representable with ties to even, and str() of the
    resulting double is its shortest round-trip decimal
    representation (frac64Digits), exactly what CPython prints; this
    reproduces the double-rounding artifacts of minutes/60 +
    seconds/3600 digit for digit, including outputs such as
    0.034999999999999996 for 2 minutes 6 seconds.  In the resolver
    the parsed coordinates are kept as exact rationals: the
    comparisons against the fixed box boundaries behave identically
    in binary64 and exact arithmetic on the inputs of the claims, and
    the distance function is abstracted, so no resolver claim depends
    on float rounding.
  * Exceptions (ValueError from int()/float(), IndexError from list
    indexing and del, UnboundLocalError from reading a never-assigned
    local) are modelled with Except: any raised exception aborts the
    function that is being modelled, exactly as in the source, where no
    parser has a try/except handler.
-/

set_option maxRecDepth 8000

/-- Python exception kinds raised by the embedded code paths. -/
inductive PyErr : Type where
  | valueError : PyErr
  | indexError : PyErr
  | unboundLocal : PyErr
deriving DecidableEq, Repr

instance {ε α : Type} [DecidableEq ε] [DecidableEq α] : DecidableEq (Except ε α) := fun a b =>
  match a, b with
  | .ok x, .ok y =>
    if h : x = y then isTrue (by rw [h]) else isFalse (by intro hh; cases hh; exact h rfl)
  | .error x, .error y =>
    if h : x = y then isTrue (by rw [h]) else isFalse (by intro hh; cases hh; exact h rfl)
  | .ok _, .error _ => isFalse (by intro hh; cases hh)
  | .error _, .ok _ => isFalse (by intro hh; cases hh)

/-- Does the list `l` start with the list `sep`? -/
def startsWithL : List Char → List Char → Bool
  | [], _ => true
  | _ :: _, [] => false
  | a :: as, b :: bs => a = b && startsWithL as bs

/-- One step bound of Python str.split: with fuel at least the length of
the input this computes exactly CPython str.split(sep) for a non-empty
separator (non-overlapping, left to right). -/
def splitFuel (sep : List Char) : Nat → List Char → List (List Char)
  | _, [] => [[]]
  | 0, l => [l]
  | fuel + 1, c :: rest =>
    if sep ≠ [] ∧ startsWithL sep (c :: rest) = true then
      [] :: splitFuel sep fuel (List.drop (sep.length - 1) rest)
    else
      match splitFuel sep fuel rest with
      | [] => [[c]]
      | seg :: segs => (c :: seg) :: segs

/-- Python str.split(sep) on character lists. -/
def pySplit (l sep : List Char) : List (List Char) :=
  splitFuel sep l.length l

/-- Python str.split(sep) on strings. -/
def pySplitS (s sep : String) : List String :=
  (pySplit s.data sep.data).map (fun u => String.mk u)

/-- The whitespace characters stripped by Python str.strip(). -/
def isPySpace (c : Char) : Bool :=
  c = ' ' || c = '\t' || c = '\n' || c = '\r' || c = '\x0b' || c = '\x0c'

/-- Python str.strip() on character lists. -/
def pyStripL (l : List Char) : List Char :=
  ((l.dropWhile isPySpace).reverse.dropWhile isPySpace).reverse

/-- Python str.strip() on strings. -/
def pyStrip (s : String) : String :=
  String.mk (pyStripL s.data)

/-- Python s[:-1]. -/
def pyDropLast (s : String) : String :=
  String.mk s.data.dropLast

/-- Python s[-1:] (the last character as a string, empty for the empty string). -/
def pyLastStr (s : String) : String :=
  String.mk (s.data.drop (s.data.length - 1))

/-- Python s[a:b] for nonnegative bounds. -/
def pySliceL (l : List Char) (a b : Nat) : List Char :=
  (l.take b).drop a

/-- Python s[2:5], the slice the coordinate converter takes from str(minsec). -/
def pySlice25 (s : String) : String :=
  String.mk ((s.data.drop 2).take 3)

/-- The first at most three characters of a string. -/
def take3 (s : String) : String :=
  String.mk (s.data.take 3)

/-- Numeric value of a list of decimal digit characters. -/
def digitsVal (l : List Char) : Nat :=
  l.foldl (fun a c => 10 * a + (c.toNat - 48)) 0

/-- Non-empty and all decimal digits. -/
def allDigits (l : List Char) : Bool :=
  !l.isEmpty && l.all Char.isDigit

/-- Python int(s) on decimal integer literals with an optional sign;
any other input raises ValueError. -/
def pyInt (s : String) : Except PyErr Int :=
  match s.data with
  | '-' :: r => if allDigits r then .ok (-(digitsVal r : Int)) else .error .valueError
  | '+' :: r => if allDigits r then .ok (digitsVal r : Int) else .error .valueError
  | r => if allDigits r then .ok (digitsVal r : Int) else .error .valueError

/-- Python float(s) on plain decimal literals with an optional sign and an
optional decimal point, evaluated exactly as a rational; any other input
raises ValueError. -/
def pyFloat (s : String) : Except PyErr ℚ :=
  let core : List Char → Option ℚ := fun l =>
    match pySplit l ['.'] with
    | [ip] => if allDigits ip then some (digitsVal ip : ℚ) else none
    | [ip, fp] =>
      if ip.all Char.isDigit && fp.all Char.isDigit && !(ip.isEmpty && fp.isEmpty) then
        some ((digitsVal ip : ℚ) + (digitsVal fp : ℚ) / 10 ^ fp.length)
      else none
    | _ => none
  match s.data with
  | '-' :: r => match core r with | some q => .ok (-q) | none => .error .valueError
  | '+' :: r => match core r with | some q => .ok q | none => .error .valueError
  | r => match core r with | some q => .ok q | none => .error .valueError

/-- Computable floor of a rational (the denominator is always positive). -/
def qfloor (q : ℚ) : Int :=
  Int.fdiv q.num (q.den : Int)

/-- Computable ceiling of a rational. -/
def qceil (q : ℚ) : Int :=
  -(qfloor (-q))

/-- Decimal digit string of a natural number, left padded with zeros to width k. -/
def padDigits (k n : Nat) : String :=
  let s := toString n
  String.mk (List.replicate (k - s.data.length) '0' ++ s.data)

/-- Fractional part of a rational. -/
def fracPart (q : ℚ) : ℚ :=
  q - (qfloor q : ℚ)

/-- Fuel-bounded floor of the base-2 logarithm of a natural number. -/
def log2Fuel : Nat → Nat → Nat
  | 0, _ => 0
  | fuel + 1, n => if 2 ≤ n then log2Fuel fuel (n / 2) + 1 else 0

/-- Floor of the base-2 logarithm (0 for 0 and 1). -/
def natLog2 (n : Nat) : Nat := log2Fuel n n

/-- The rational 2 to an integer power. -/
def qpow2 (e : Int) : ℚ :=
  if 0 ≤ e then ((2 ^ e.toNat : Nat) : ℚ) else (1 : ℚ) / ((2 ^ (-e).toNat : Nat) : ℚ)

/-- For positive q, the exponent e with 2 ^ e ≤ q < 2 ^ (e + 1). -/
def flExp (q : ℚ) : Int :=
  let g : Int := (natLog2 q.num.toNat : Int) - (natLog2 q.den : Int)
  if q < qpow2 g then g - 1 else if q < qpow2 (g + 1) then g else g + 1

/-- IEEE-754 binary64 rounding of a positive rational: scale to a 53-bit
significand and round to the nearest integer, ties to even.  (The normal
range suffices: every value this program computes is far from the subnormal
and overflow thresholds.) -/
def fl64pos (q : ℚ) : ℚ :=
  let e := flExp q - 52
  let s := q * qpow2 (-e)
  let n0 := qfloor s
  let r := s - (n0 : ℚ)
  let n := if 1 / 2 < r then n0 + 1 else if r < 1 / 2 then n0
           else if n0 % 2 = 0 then n0 else n0 + 1
  (n : ℚ) * qpow2 e

/-- IEEE-754 binary64 rounding of a rational, round to nearest, ties to
even; the value of the double a Python float operation produces. -/
def fl64 (q : ℚ) : ℚ :=
  if q = 0 then 0 else if q < 0 then -(fl64pos (-q)) else fl64pos q

/-- Search for the fewest fractional digits k such that some decimal t / 10 ^ k
lies in the round-trip interval (lo, hi) of a double d; the endpoints are
included exactly when the significand of d is even (ties to even round them
back to d).  Among the candidates the one nearest to d is printed, which is
what the CPython float repr algorithm selects. -/
def shortestFracGo (d lo hi : ℚ) (inclusive : Bool) : Nat → Nat → Option String
  | 0, _ => none
  | fuel + 1, k =>
    let los := lo * 10 ^ k
    let his := hi * 10 ^ k
    let tmin := if inclusive then qceil los else qfloor los + 1
    let tmax := if inclusive then qfloor his else qceil his - 1
    if tmin ≤ tmax then
      let rn := qfloor (d * 10 ^ k + 1 / 2)
      some (padDigits k (max tmin (min tmax rn)).toNat)
    else shortestFracGo d lo hi inclusive fuel (k + 1)

/-- The fractional digit block CPython prints for a double d in [0, 1): the
shortest decimal digit string that rounds back to exactly d under binary64
round-to-nearest-even ("0" for zero).  lo and hi are the midpoints towards
the neighbouring doubles, crossing the binade below when the significand is
minimal. -/
def frac64Digits (d : ℚ) : String :=
  if d ≤ 0 then "0"
  else
    let e := flExp d - 52
    let n := qfloor (d * qpow2 (-e))
    let prev := if n = 2 ^ 52 then (((2 : Int) ^ 53 - 1 : Int) : ℚ) * qpow2 (e - 1)
                else ((n - 1 : Int) : ℚ) * qpow2 e
    let nxt := ((n + 1 : Int) : ℚ) * qpow2 e
    let lo := (d + prev) / 2
    let hi := (d + nxt) / 2
    match shortestFracGo d lo hi (decide (n % 2 = 0)) 25 1 with
    | some s => s
    | none => padDigits 25 (qfloor (d * 10 ^ 25)).toNat

/-- The first at most three digits of the exact decimal expansion of the
fractional part, trailing zeros of a terminating expansion omitted (a
non-terminating expansion is cut after 17 digits, of which only the first
three are ever compared).  This is the reference rendering of truncation in
exact arithmetic; the program prints frac64Digits of the computed double
instead, which differs from it on a few inputs by binary rounding. -/
def decFracDigits (q : ℚ) : String :=
  let fp := fracPart q
  match (List.range 18).find? (fun k => (fp * 10 ^ k).den == 1) with
  | some 0 => "0"
  | some k => padDigits k (fp * 10 ^ k).num.toNat
  | none => padDigits 17 (qfloor (fp * 10 ^ 17)).toNat

/-- str() of a nonnegative float value: the integer part, a point, and the
shortest round-trip digits of the fractional part (the arguments it receives
in this development are doubles in [0, 1), where this is exactly the CPython
float repr). -/
def pyStrFloat (q : ℚ) : String :=
  toString (qfloor q) ++ "." ++ frac64Digits (fracPart q)

/-
  dms_to_dec (nws_database_creator.py lines 402-428; the identical method
  Metar.dms_to_dec in database_creator.py lines 164-190).

      def dms_to_dec(dms_string, spacer='-'):
          dms = dms_string[:-1].split(spacer)
          degrees = int(dms[0])
          if len(dms) > 1:
              minutes = float(dms[1])
              minsec = minutes / 60
          if len(dms) > 2:
              seconds = float(dms[2])
              minsec = minsec + (seconds / 3600)
          minsec = str(minsec)[2:5]
          if dms_string[-1:] in ['S', 'W']:
              sign = '-'
          else:
              sign = ''
          result = "{}{}.{}".format(sign, degrees, minsec)
          return result

  The body after the split is factored out as dms_core so that theorems can
  quantify over the component list; dms_to_dec composes the two parts exactly
  as the source does.  When len(dms) == 1 the local minsec is never assigned
  and the unconditional str(minsec) raises UnboundLocalError.  Every float
  creation and arithmetic operation is followed by fl64, the binary64
  rounding, exactly as the Python interpreter rounds: float(dms[1]) is the
  double nearest the literal value, minutes / 60 and seconds / 3600 are
  correctly-rounded divisions, and the final sum rounds once more, so minsec
  is the very double CPython holds and str(minsec) prints its shortest
  round-trip digits.
-/

/-- Body of dms_to_dec after the split: dms is the list of components,
lastc is dms_string[-1:]. -/
def dms_core (dms : List String) (lastc : String) : Except PyErr String :=
  match pyInt (dms.headD "") with
  | .error e => .error e
  | .ok degrees =>
    match (if 1 < dms.length then
            match pyFloat (dms.getD 1 "") with
            | .error e => .error e
            | .ok minutesLit =>
              let minutes := fl64 minutesLit
              let ms := fl64 (minutes / 60)
              if 2 < dms.length then
                match pyFloat (dms.getD 2 "") with
                | .error e => .error e
                | .ok secondsLit =>
                  let seconds := fl64 secondsLit
                  .ok (some (fl64 (ms + fl64 (seconds / 3600))))
              else .ok (some ms)
          else (.ok none : Except PyErr (Option ℚ))) with
    | .error e => .error e
    | .ok none => .error .unboundLocal
    | .ok (some q) =>
      .ok ((if lastc = "S" ∨ lastc = "W" then "-" else "")
            ++ toString degrees ++ "." ++ pySlice25 (pyStrFloat q))

/-- dms_to_dec from nws_database_creator.py (equal to Metar.dms_to_dec of
database_creator.py). -/
def dms_to_dec (dms_string spacer : String) : Except PyErr String :=
  dms_core (pySplitS (pyDropLast dms_string) spacer) (pyLastStr dms_string)

/-
  Zone index artifact selection.

  nws_database_creator.py Zones.parse_nws_index (lines 316-348) ends with

      if len(possible_files) == 0:
          self.index_status = 0
      elif len(possible_files) == 1:
          possible = possible_files[0]
          self.data_url = list(possible.values())[0]
      else:
          today                  = datetime.datetime.today().timestamp()
          smallest_timedelta     = 10000000000
          smallest_timedelta_url = ''
          for possible in possible_files:
              date = list(possible.keys())[0].timestamp()
              if today - date < smallest_timedelta:
                  smallest_timedelta     = today - date
                  smallest_timedelta_url = list(possible.values())[0]
          self.data_url = smallest_timedelta_url

  Dates are modelled as rational timestamps (strptime followed by timestamp()
  is strictly monotone in the calendar date), and the scraped candidate list
  possible_files as a list of (timestamp, url) pairs.  The function below
  returns the url the code stores in self.data_url (none when the code
  instead clears index_status).
-/

/-- Selection stage of Zones.parse_nws_index in nws_database_creator.py. -/
def parse_nws_index_select (today : ℚ) (possible_files : List (ℚ × String)) : Option String :=
  match possible_files with
  | [] => none
  | [p] => some p.2
  | _ =>
    let final := possible_files.foldl
      (fun (st : ℚ × String) p => if today - p.1 < st.1 then (today - p.1, p.2) else st)
      ((10000000000 : ℚ), "")
    some final.2

/-
  database_creator.py Zones.parse_nws_index (lines 274-309) ends with

      today        = datetime.datetime.today()
      current_file = None
      for date in possible_files.keys():
          if date > today:
              continue
          elif current_file == None:
              current_file = date
              continue
          elif date > current_file:
              date = current_file
      self.data_url = possible_files[current_file]

  The last branch assigns the loop variable date, not current_file, so it has
  no effect: current_file ends up being the first non-future date in
  iteration order.  possible_files is a dict built in scrape order; it is
  modelled as an association list with distinct dates, so the final dict
  lookup possible_files[current_file] is modelled by carrying the (date, url)
  pair of current_file through the loop.  When current_file is still None the
  lookup raises; that case is modelled as none.
-/

/-- Selection stage of Zones.parse_nws_index in database_creator.py. -/
def parse_nws_index_select_v2 (today : ℚ) (possible_files : List (ℚ × String)) : Option String :=
  let current := possible_files.foldl
    (fun (cur : Option (ℚ × String)) p =>
      if p.1 > today then cur
      else match cur with
        | none => some p
        | some _ => cur)
    none
  current.map (fun p => p.2)

/-- Modelled from the spec, for comparison: discard candidates whose date is
strictly after today, and among the remainder return the url of the candidate
with the smallest non-negative delta to today. -/
def spec_select_artifact (today : ℚ) (possible_files : List (ℚ × String)) : Option String :=
  match possible_files.filter (fun p => decide (p.1 ≤ today)) with
  | [] => none
  | h :: t =>
    some ((t.foldl (fun best p => if today - p.1 < today - best.1 then p else best) h).2)

/-- Modelled from the spec, for comparison: the value of dms_to_dec that the
spec describes, with the fractional part truncated to exactly three digits
after the decimal point and rendered as text. -/
def spec_trunc3_render (sign : String) (degrees : Int) (minsec : ℚ) : String :=
  sign ++ toString degrees ++ "." ++ padDigits 3 (qfloor (fracPart minsec * 1000)).toNat

/-
  Radar.parse_nws header scan (nws_database_creator.py lines 98-111):

      column_metadata = []
      line1 = stations[0]                  # COLUMN NAMES
      line2 = stations[1]                  # ------ -----
      for col in range(0, len(line1), 1):
          if col == 0:
              start = 0
          elif line2[col] == '-':
              continue
          else:  # line2[col] == ' '
              name = line1[start:col].strip()
              column_metadata.append((name, start, col)) # Append a tuple
              start = col                                # Reset start

  line2[col] raises IndexError when the separator line is shorter than the
  header line; that is modelled with Except.  Note that nothing after the
  loop appends a final (name, start, len(line1)) column.
-/

/-- Loop body of the Radar.parse_nws header scan: cols is the list of column
indices still to visit, start the current column start, acc the tuples
appended so far. -/
def columnMetaGo (line1 line2 : List Char) :
    List Nat → Nat → List (String × Nat × Nat) → Except PyErr (List (String × Nat × Nat))
  | [], _, acc => .ok acc
  | col :: cols, start, acc =>
    if col = 0 then columnMetaGo line1 line2 cols 0 acc
    else
      match line2.get? col with
      | none => .error .indexError
      | some c =>
        if c = '-' then columnMetaGo line1 line2 cols start acc
        else columnMetaGo line1 line2 cols col
          (acc ++ [(pyStrip (String.mk (pySliceL line1 start col)), start, col)])

/-- The column_metadata list built by Radar.parse_nws from the header line
and the separator line. -/
def column_metadata (line1 line2 : String) : Except PyErr (List (String × Nat × Nat)) :=
  columnMetaGo line1.data line2.data (List.range line1.data.length) 0 []

/-- The separator character at position c is present and not a dash (out of
range counts as a dash, matching that such a position is never recorded). -/
def sepNonDash (line2 : List Char) (c : Nat) : Bool :=
  decide (((line2.get? c).getD '-') ≠ '-')

/-- The positions at which the header scan records a column: every position
other than 0, strictly inside the header line, where the separator character
is not a dash, in increasing order. -/
def colPositions (line1 line2 : List Char) : List Nat :=
  ((List.range line1.length).drop 1).filter (sepNonDash line2)

/-- The column list determined by a list of recording positions: one tuple
per position, named by the trimmed header slice from the previous position
(initially 0) to the current one. -/
def buildCols (line1 : List Char) : List Nat → Nat → List (String × Nat × Nat)
  | [], _ => []
  | p :: ps, start =>
    (pyStrip (String.mk (pySliceL line1 start p)), start, p) :: buildCols line1 ps p

/-- Insert-or-replace for an association list, the dict upsert semantics of
self[key] = value (last write for a duplicate key wins, order of first
insertion kept). -/
def upsertA {α : Type} (k : String) (v : α) : List (String × α) → List (String × α)
  | [] => [(k, v)]
  | (k', v') :: rest => if k' = k then (k, v) :: rest else (k', v') :: upsertA k v rest

/-- Python content.split('\r\n')[0:-1]. -/
def pyLinesCRLF (s : String) : List String :=
  (pySplitS s "\r\n").dropLast

/-- Python content.split('\n')[:-1]. -/
def pyLinesLF (s : String) : List String :=
  (pySplitS s "\n").dropLast

/-- The zone record fields kept by Zones.parse_nws_zones. -/
structure ZoneRec : Type where
  Zone_Name : String
  Zone : String
  County : String
  Latitude : String
  Longitude : String
deriving DecidableEq, Repr

/-
  Zones.parse_nws_zones (nws_database_creator.py lines 351-369, identical in
  database_creator.py lines 312-330):

      lines = self.content.split('\r\n')[0:-1]
      for line in lines:
          zone          = line.split('|')[4]
          if len(zone) < 5:
              continue
          self[zone]    = {}
          self[zone]['Zone_Name']     = line.split('|')[3]
          self[zone]['Zone']          = line.split('|')[4]
          self[zone]['County']        = line.split('|')[5]
          self[zone]['Latitude']      = line.split('|')[9]
          self[zone]['Longitude']     = line.split('|')[10]

  Each list index raises IndexError when out of range, aborting the parse.
-/

/-- Processing of one line of the zone file. ok none means the line was
skipped by the len(zone) < 5 guard. -/
def zoneLine (line : String) : Except PyErr (Option (String × ZoneRec)) :=
  let f := pySplitS line "|"
  match f.get? 4 with
  | none => .error .indexError
  | some zone =>
    if zone.data.length < 5 then .ok none
    else
      match f.get? 3, f.get? 5, f.get? 9, f.get? 10 with
      | some zn, some cty, some lat, some lon =>
        .ok (some (zone, { Zone_Name := zn, Zone := zone, County := cty,
                           Latitude := lat, Longitude := lon }))
      | _, _, _, _ => .error .indexError

/-- The loop of Zones.parse_nws_zones over the line list. -/
def zoneGo : List String → List (String × ZoneRec) → Except PyErr (List (String × ZoneRec))
  | [], acc => .ok acc
  | l :: ls, acc =>
    match zoneLine l with
    | .error e => .error e
    | .ok none => zoneGo ls acc
    | .ok (some (k, v)) => zoneGo ls (upsertA k v acc)

/-- Zones.parse_nws_zones: the dict of zone records built from the file body,
or the exception that aborts the parse. -/
def parse_nws_zones (content : String) : Except PyErr (List (String × ZoneRec)) :=
  zoneGo (pyLinesCRLF content) []

/-- A line is processed without an exception by Zones.parse_nws_zones exactly
when it has at least 11 pipe-separated fields, or has at least 5 fields and
its fifth field is shorter than 5 characters. -/
def zoneLineTotal (line : String) : Bool :=
  let f := pySplitS line "|"
  11 ≤ f.length || (5 ≤ f.length && (f.getD 4 "").data.length < 5)

/-- The METAR record fields kept by Metar.parse. -/
structure MetarRec : Type where
  Name : String
  Location : String
  Latitude : String
  Longitude : String
deriving DecidableEq, Repr

/-- Python del sta_line[0] combined with a read of sta_line[0]: IndexError on
an empty list. -/
def popE : List String → Except PyErr (String × List String)
  | [] => .error .indexError
  | x :: xs => .ok (x, xs)

/-
  Metar.parse (nws_database_creator.py lines 211-256):

      stations = self.locations.split('\n')[:-1]
      for station in stations:
          sta_line = station.split(';')
          icao = sta_line[0]
          if icao.upper() not in self.stations:
              continue
          self[icao]                 = {}
          self[icao]['Name']         = icao
          del sta_line[0]
          del sta_line[0]            # Block_Num
          del sta_line[0]            # Station_Num
          self[icao]['Location']     = sta_line[0].strip()
          del sta_line[0]
          if len(sta_line[0]) in [0, 2, 24]:
              del sta_line[0]        # State
          del sta_line[0]            # Country
          del sta_line[0]            # WMO_Region
          self[icao]['Latitude']     = dms_to_dec(sta_line[0].strip())
          del sta_line[0]
          self[icao]['Longitude']    = dms_to_dec(sta_line[0].strip())
          del sta_line[0]

  There is no try/except: a ValueError raised by dms_to_dec, or an IndexError
  raised by an exhausted sta_line, propagates out of parse and aborts the
  whole batch.  allow is the self.stations code list scraped beforehand.
-/

/-- Processing of one line of the METAR station list. ok none means the
station was not in the allow-list and the line was skipped. -/
def metarLine (allow : List String) (line : String) : Except PyErr (Option (String × MetarRec)) :=
  let sta := pySplitS line ";"
  let icao := sta.headD ""
  if icao.toUpper ∈ allow then
    let r0 := sta.drop 1
    match popE r0 with
    | .error e => .error e
    | .ok (_, r1) =>
      match popE r1 with
      | .error e => .error e
      | .ok (_, r2) =>
        match popE r2 with
        | .error e => .error e
        | .ok (locRaw, r3) =>
          match r3 with
          | [] => .error .indexError
          | s4 :: rest4 =>
            let r4 := if s4.data.length = 0 ∨ s4.data.length = 2 ∨ s4.data.length = 24
                      then rest4 else s4 :: rest4
            match popE r4 with
            | .error e => .error e
            | .ok (_, r5) =>
              match popE r5 with
              | .error e => .error e
              | .ok (_, r6) =>
                match popE r6 with
                | .error e => .error e
                | .ok (latRaw, r7) =>
                  match dms_to_dec (pyStrip latRaw) "-" with
                  | .error e => .error e
                  | .ok lat =>
                    match popE r7 with
                    | .error e => .error e
                    | .ok (lonRaw, _) =>
                      match dms_to_dec (pyStrip lonRaw) "-" with
                      | .error e => .error e
                      | .ok lon =>
                        .ok (some (icao, { Name := icao, Location := pyStrip locRaw,
                                           Latitude := lat, Longitude := lon }))
  else .ok none

/-- The loop of Metar.parse over the line list. -/
def metarGo (allow : List String) :
    List String → List (String × MetarRec) → Except PyErr (List (String × MetarRec))
  | [], acc => .ok acc
  | l :: ls, acc =>
    match metarLine allow l with
    | .error e => .error e
    | .ok none => metarGo allow ls acc
    | .ok (some (k, v)) => metarGo allow ls (upsertA k v acc)

/-- Metar.parse of nws_database_creator.py: the dict of station records built
from the station list, or the exception that aborts the parse. -/
def metar_parse (allow : List String) (locations : String) : Except PyErr (List (String × MetarRec)) :=
  metarGo allow (pyLinesLF locations) []

/-
  closest_weather_location.py.  The module constants:

      LATITUDE  = 43.01
      LONGITUDE = -87.99
-/

/-- Reference latitude of closest_weather_location.py. -/
def LATITUDE : ℚ := 43.01

/-- Reference longitude of closest_weather_location.py. -/
def LONGITUDE : ℚ := -87.99

/-
  rough_distance (closest_weather_location.py lines 75-98):

      lat_a = LATITUDE + degree_variance
      lat_b = LATITUDE - degree_variance
      lon_a = LONGITUDE + degree_variance
      lon_b = LONGITUDE - degree_variance
      if lat_a < test_latitude < lat_b or lat_b < test_latitude < lat_a:
          pass
      else:
          return False
      if lon_a < test_longitude < lon_b or lon_b < test_longitude < lon_a:
          return True
      else:
          return False
-/

/-- rough_distance of closest_weather_location.py. -/
def rough_distance (degree_variance test_latitude test_longitude : ℚ) : Bool :=
  let lat_a := LATITUDE + degree_variance
  let lat_b := LATITUDE - degree_variance
  let lon_a := LONGITUDE + degree_variance
  let lon_b := LONGITUDE - degree_variance
  if (lat_a < test_latitude ∧ test_latitude < lat_b) ∨
     (lat_b < test_latitude ∧ test_latitude < lat_a) then
    if (lon_a < test_longitude ∧ test_longitude < lon_b) ∨
       (lon_b < test_longitude ∧ test_longitude < lon_a) then true
    else false
  else false

/-- A candidate record as read by best() from the downloaded CSV tables: the
csv.DictReader rows of one table all carry the same field names, so a row is
a record with a fixed schema; best() reads only Latitude and Longitude and
returns the row whole.  (Zone rows carry Zone/Zone_Name/County instead of
Name/Location; only the two coordinate fields matter to best, the payload
fields stand in for the rest of the row.) -/
structure Loc : Type where
  Name : String
  Location : String
  Latitude : String
  Longitude : String
deriving DecidableEq, Repr

/-
  best (closest_weather_location.py lines 101-129):

      closest_dist = 100000
      closest_sta  = {}
      for loc in many_locations:
          if loc['Latitude'] == '' or loc['Longitude'] == '':
              continue
          lat = float(loc['Latitude'])
          lon = float(loc['Longitude'])
          if not rough_distance(5, lat, lon):
              continue
          dist = precise_distance(LATITUDE, LONGITUDE, lat, lon )
          if  dist < closest_dist:
              closest_dist = dist
              closest_sta.update(loc)
      if len(closest_sta) == 0:
          return None
      else:
          return closest_sta

  precise_distance computes the haversine great-circle distance with float
  transcendentals (math.sin, cos, atan2, sqrt) and truncates with int(); it
  is modelled as an abstract integer-valued distance function dist passed as
  a parameter, so every theorem below holds for the haversine distance in
  particular and the selection logic is verified uniformly in it.
  closest_sta.update(loc) with the uniform DictReader schema overwrites every
  field, so it is modelled as replacing the whole record; the final
  len(closest_sta) == 0 test is the Option none case.  A float() failure on
  a non-empty coordinate field would raise ValueError out of best, hence the
  Except result.
-/

/-- One iteration of the best() loop: s is (closest_dist, closest_sta). -/
def bestStep (dist : ℚ → ℚ → ℚ → ℚ → Int) (s : Int × Option Loc) (loc : Loc) :
    Except PyErr (Int × Option Loc) :=
  if loc.Latitude = "" ∨ loc.Longitude = "" then .ok s
  else
    match pyFloat loc.Latitude with
    | .error e => .error e
    | .ok lat =>
      match pyFloat loc.Longitude with
      | .error e => .error e
      | .ok lon =>
        if rough_distance 5 lat lon then
          let d := dist LATITUDE LONGITUDE lat lon
          if d < s.1 then .ok (d, some loc) else .ok s
        else .ok s

/-- The best() loop over the candidate list. -/
def bestFold (dist : ℚ → ℚ → ℚ → ℚ → Int) :
    List Loc → (Int × Option Loc) → Except PyErr (Int × Option Loc)
  | [], s => .ok s
  | loc :: rest, s =>
    match bestStep dist s loc with
    | .error e => .error e
    | .ok s' => bestFold dist rest s'

/-- best of closest_weather_location.py, with the distance function as a
parameter. -/
def best (dist : ℚ → ℚ → ℚ → ℚ → Int) (many_locations : List Loc) :
    Except PyErr (Option Loc) :=
  match bestFold dist many_locations ((100000 : Int), none) with
  | .error e => .error e
  | .ok s => .ok s.2

/-- The record has both coordinate fields non-empty (the only skip test best
applies before parsing). -/
def coordsPresent (loc : Loc) : Bool :=
  !(loc.Latitude == "" || loc.Longitude == "")

/-- The parsed coordinates of a record, when both fields parse as floats. -/
def parsedCoords (loc : Loc) : Option (ℚ × ℚ) :=
  match pyFloat loc.Latitude, pyFloat loc.Longitude with
  | .ok a, .ok b => some (a, b)
  | _, _ => none

/-- The record does not make best() raise: if its coordinates are non-empty
they parse as floats. -/
def locOk (loc : Loc) : Prop :=
  coordsPresent loc = true → (parsedCoords loc).isSome = true

/-- The record passes the Stage 1 prefilter: coordinates present, parsed, and
inside the rough_distance box. -/
def passes (loc : Loc) : Bool :=
  coordsPresent loc &&
    (match parsedCoords loc with
     | some (a, b) => rough_distance 5 a b
     | none => false)

/-- The integer distance best() computes for a record (0 for records it never
measures). -/
def locDist (dist : ℚ → ℚ → ℚ → ℚ → Int) (loc : Loc) : Int :=
  match parsedCoords loc with
  | some (a, b) => dist LATITUDE LONGITUDE a b
  | none => 0

/-- A constant distance function used to instantiate the resolver theorems at
concrete inputs. -/
def distConst : ℚ → ℚ → ℚ → ℚ → Int := fun _ _ _ _ => 7

/-- A candidate inside the prefilter box, used by witnesses. -/
def locWitA : Loc :=
  { Name := "A", Location := "x", Latitude := "43.05", Longitude := "-88.0" }

/-- A second candidate at the same coordinates, used by witnesses. -/
def locWitB : Loc :=
  { Name := "B", Location := "y", Latitude := "43.05", Longitude := "-88.0" }

/-- A candidate with an empty Latitude field, used by witnesses. -/
def locWitEmpty : Loc :=
  { Name := "E", Location := "w", Latitude := "", Longitude := "-88.0" }

/-- The METAR batch used by the C4 witness: the first line is admitted and
carries the malformed latitude ABC. -/
def metarBadBatch : String :=
  "BBBB;1;2;Loc;US;C;5;ABC;087-59W;x\nAAAA;1;2;Loc;US;C;5;041-20-15N;087-59W;x\n"

/-- C1: the claim says artifact selection discards every candidate dated
strictly after today and picks the smallest non-negative delta, excluding the
future-dated B and choosing A.  The code does neither: the
nws_database_creator.py loop minimises the signed delta today - date with no
future check, so on the claim's own candidate set it selects the future-dated
B; the database_creator.py loop does discard futures but its update assigns
the loop variable, so it returns the first non-future candidate in scrape
order (here C), not the most recent.  The spec-modelled rule returns A on
both inputs.  Dates are encoded as YYYYMMDD timestamps, today is 2021-01-01. -/
theorem C1_artifact_selection_bug :
    parse_nws_index_select 20210101
      [((20200101 : ℚ), "A"), (20990101, "B"), (20190601, "C")] = some "B"
    ∧ parse_nws_index_select_v2 20210101
      [((20190601 : ℚ), "C"), (20200101, "A")] = some "C"
    ∧ spec_select_artifact 20210101
      [((20200101 : ℚ), "A"), (20990101, "B"), (20190601, "C")] = some "A"
    ∧ spec_select_artifact 20210101
      [((20190601 : ℚ), "C"), (20200101, "A")] = some "A" := by
  refine ⟨?_, ?_, ?_, ?_⟩ <;> with_unfolding_all decide

/-- C5: the claim says a degrees-only DMS string such as 41N converts to the
integer degrees; in the code minsec is only assigned under the
len(dms) > 1 guard, and the unconditional str(minsec) then raises
UnboundLocalError, so the conversion crashes instead. -/
theorem C5_degrees_only_crash : dms_to_dec "41N" "-" = .error .unboundLocal := by
  with_unfolding_all decide

/-- C2 counterexample: on 41-30N the code returns 41.5, while the claimed
rendering with exactly three digits after the decimal point is 41.500; the
output of dms_to_dec does not carry exactly three fractional digits. -/
theorem C2_counterexample :
    dms_to_dec "41-30N" "-" = .ok "41.5"
    ∧ spec_trunc3_render "" 41 (30 / 60) = "41.500"
    ∧ ("41.5" : String) ≠ "41.500" := by
  refine ⟨?_, ?_, ?_⟩ <;> with_unfolding_all decide

/-- C3 counterexample: on the claim's own header/separator pair the derived
columns are NAME [0,4), ST [4,7) and an empty-named column [7,8); no column
named LAT is derived at all, because the loop never closes the final column
at the line length. -/
theorem C3_counterexample :
    column_metadata "NAME ST  LAT" "---- --  ---" =
      .ok [("NAME", 0, 4), ("ST", 4, 7), ("", 7, 8)]
    ∧ ("LAT" : String) ∉
      ([("NAME", 0, 4), ("ST", 4, 7), ("", 7, 8)] : List (String × Nat × Nat)).map Prod.fst := by
  refine ⟨?_, ?_⟩ <;> with_unfolding_all decide

/-- C4 counterexample: a batch whose first admitted record has the malformed
latitude ABC makes Metar.parse raise ValueError, aborting the whole batch;
the well-formed AAAA record on the next line is never emitted. -/
theorem C4_counterexample :
    metar_parse ["AAAA", "BBBB"] metarBadBatch = .error .valueError := by
  with_unfolding_all decide

/-- C7: the Stage 1 prefilter passes a candidate, for any positive half-width
v, exactly when its latitude lies strictly between LATITUDE - v and
LATITUDE + v and its longitude strictly between LONGITUDE - v and
LONGITUDE + v; in particular with half-width 5 the candidate at
(43.05, -88.0) passes and the candidate at (50.0, -88.0) does not. -/
theorem C7_prefilter_box :
    (∀ (v lat lon : ℚ), 0 < v →
      (rough_distance v lat lon = true ↔
        (LATITUDE - v < lat ∧ lat < LATITUDE + v ∧
         LONGITUDE - v < lon ∧ lon < LONGITUDE + v)))
    ∧ rough_distance 5 43.05 (-88.0) = true
    ∧ rough_distance 5 (50.0 : ℚ) (-88.0) = false := by
  refine ⟨?_, by with_unfolding_all decide, by with_unfolding_all decide⟩
  intro v lat lon hv
  unfold rough_distance
  dsimp only
  constructor
  · intro h
    split_ifs at h with ha hb
    rcases ha with ⟨x1, x2⟩ | ⟨x1, x2⟩
    · exfalso; linarith
    · rcases hb with ⟨y1, y2⟩ | ⟨y1, y2⟩
      · exfalso; linarith
      · exact ⟨x1, x2, y1, y2⟩
  · rintro ⟨h1, h2, h3, h4⟩
    split_ifs with ha hb
    · rfl
    · exact absurd (Or.inr ⟨h3, h4⟩) hb
    · exact absurd (Or.inr ⟨h1, h2⟩) ha

/-- Witness for C7 at the reference point itself with half-width 2. -/
theorem C7_prefilter_box_witness : rough_distance 2 43.01 (-87.99) = true :=
  (C7_prefilter_box.1 2 43.01 (-87.99) (by norm_num)).mpr
    (by norm_num [LATITUDE, LONGITUDE])

/-- A line of the zone file is processed without an exception exactly when
zoneLineTotal holds for it. -/
lemma zoneLine_cases (line : String) :
    (∃ o, zoneLine line = .ok o) ↔ zoneLineTotal line = true := by
  unfold zoneLine zoneLineTotal
  dsimp only
  rcases h4 : (pySplitS line "|").get? 4 with _ | zone
  · have hlen : (pySplitS line "|").length ≤ 4 := List.get?_eq_none.mp h4
    simp only [h4]
    constructor
    · rintro ⟨o, ho⟩; cases ho
    · intro h
      exfalso
      simp only [Bool.or_eq_true, Bool.and_eq_true, decide_eq_true_eq] at h
      rcases h with h | ⟨h, _⟩ <;> omega
  · have h4lt : 4 < (pySplitS line "|").length := by
      rcases List.get?_eq_some.mp h4 with ⟨hh, _⟩; exact hh
    have hgetD : (pySplitS line "|").getD 4 "" = zone := by
      rw [List.getD_eq_getElem?_getD, ← List.get?_eq_getElem?, h4]; rfl
    simp only [h4, hgetD]
    by_cases hz : zone.data.length < 5
    · rw [if_pos hz]
      constructor
      · intro _
        simp only [Bool.or_eq_true, Bool.and_eq_true, decide_eq_true_eq]
        exact Or.inr ⟨by omega, hz⟩
      · intro _; exact ⟨none, rfl⟩
    · rw [if_neg hz]
      rcases h10 : (pySplitS line "|").get? 10 with _ | lon
      · have hlen10 : (pySplitS line "|").length ≤ 10 := List.get?_eq_none.mp h10
        constructor
        · rintro ⟨o, ho⟩
          exfalso
          rcases h3 : (pySplitS line "|").get? 3 with _ | z3 <;> rw [h3] at ho
          · cases ho
          · rcases h5 : (pySplitS line "|").get? 5 with _ | z5 <;> rw [h5] at ho
            · cases ho
            · rcases h9 : (pySplitS line "|").get? 9 with _ | z9 <;> rw [h9] at ho
              · cases ho
              · cases ho
        · intro h
          exfalso
          simp only [Bool.or_eq_true, Bool.and_eq_true, decide_eq_true_eq] at h
          rcases h with h | ⟨_, h⟩
          · omega
          · exact hz h
      · have h11 : 11 ≤ (pySplitS line "|").length := by
          rcases List.get?_eq_some.mp h10 with ⟨hh, _⟩; omega
        have h3 := List.get?_eq_get (l := pySplitS line "|") (n := 3) (by omega)
        have h5 := List.get?_eq_get (l := pySplitS line "|") (n := 5) (by omega)
        have h9 := List.get?_eq_get (l := pySplitS line "|") (n := 9) (by omega)
        rw [h3, h5, h9]
        constructor
        · intro _
          simp only [Bool.or_eq_true, decide_eq_true_eq]
          exact Or.inl h11
        · intro _
          exact ⟨_, rfl⟩

/-- The zone parse loop succeeds exactly when every line it visits is total;
the first non-total line raises and discards the whole run. -/
lemma zoneGo_ok_iff : ∀ (lines : List String) (acc : List (String × ZoneRec)),
    (∃ r, zoneGo lines acc = .ok r) ↔ ∀ l ∈ lines, zoneLineTotal l = true := by
  intro lines
  induction lines with
  | nil => intro acc; simp [zoneGo]
  | cons l ls ih =>
    intro acc
    by_cases h : zoneLineTotal l = true
    · obtain ⟨o, ho⟩ := (zoneLine_cases l).mpr h
      cases o with
      | none => simp [zoneGo, ho, ih, h]
      | some kv => simp [zoneGo, ho, ih, h]
    · have herr : ∀ o, zoneLine l ≠ .ok o := fun o ho => h ((zoneLine_cases l).mp ⟨o, ho⟩)
      rcases hzl : zoneLine l with e | o
      · constructor
        · rintro ⟨r, hr⟩
          rw [zoneGo, hzl] at hr
          cases hr
        · intro hall
          exact absurd (hall l (by simp)) h
      · exact absurd hzl (herr o)

/-- C10: parse_nws_zones completes without an exception exactly when every
line (after the CRLF split that drops the final fragment) either has at
least 11 pipe-separated fields or has at least 5 fields with a fifth field
shorter than 5 characters; a line with fewer than 5 fields raises IndexError
at the field-4 read, and a line with a long fifth field but fewer than 11
fields raises IndexError at the field 5/9/10 reads, aborting the whole parse
instead of being skipped. -/
theorem C10_zone_totality :
    (∀ content : String,
      (∃ r, parse_nws_zones content = .ok r) ↔
        ∀ line ∈ pyLinesCRLF content, zoneLineTotal line = true)
    ∧ parse_nws_zones "a|b\r\n" = .error .indexError
    ∧ parse_nws_zones "a|b|c|d|EEEEE|f\r\n" = .error .indexError := by
  refine ⟨?_, by with_unfolding_all decide, by with_unfolding_all decide⟩
  intro content
  unfold parse_nws_zones
  exact zoneGo_ok_iff (pyLinesCRLF content) []

/-- Witness for C10: a well-formed 11-field line parses without an exception. -/
theorem C10_zone_totality_witness :
    ∃ r, parse_nws_zones "a|b|c|NAMED|ZONE1|CTY|f|t|w|43.0|-88.0\r\n" = .ok r :=
  (C10_zone_totality.1 "a|b|c|NAMED|ZONE1|CTY|f|t|w|43.0|-88.0\r\n").mpr
    (by with_unfolding_all decide)

/-- Loop characterization of the Radar.parse_nws header scan: over any list
of in-range non-zero column indices the loop succeeds and appends exactly
one tuple per index whose separator character is not a dash, each named by
the trimmed header slice from the previous recorded index. -/
lemma columnMetaGo_spec (line1 line2 : List Char) :
    ∀ (cols : List Nat) (start : Nat) (acc : List (String × Nat × Nat)),
      (∀ c ∈ cols, c ≠ 0 ∧ c < line2.length) →
      columnMetaGo line1 line2 cols start acc =
        .ok (acc ++ buildCols line1 (cols.filter (sepNonDash line2)) start) := by
  intro cols
  induction cols with
  | nil =>
    intro start acc _
    simp [columnMetaGo, buildCols]
  | cons c cs ih =>
    intro start acc h
    obtain ⟨hc0, hclt⟩ := h c (by simp)
    have hget := List.get?_eq_get (l := line2) (n := c) hclt
    have hstep : columnMetaGo line1 line2 (c :: cs) start acc =
        (if line2.get ⟨c, hclt⟩ = '-' then columnMetaGo line1 line2 cs start acc
         else columnMetaGo line1 line2 cs c
           (acc ++ [(pyStrip (String.mk (pySliceL line1 start c)), start, c)])) := by
      rw [columnMetaGo, if_neg hc0, hget]
    rw [hstep]
    by_cases hdash : line2.get ⟨c, hclt⟩ = '-'
    · rw [if_pos hdash, ih start acc (fun d hd => h d (by simp [hd]))]
      have hnd : sepNonDash line2 c = false := by
        unfold sepNonDash
        rw [hget]
        simp only [Option.getD_some, ne_eq, decide_not, Bool.not_eq_false',
          decide_eq_true_eq]
        exact hdash
      rw [List.filter_cons_of_neg (by simp [hnd])]
    · rw [if_neg hdash, ih c _ (fun d hd => h d (by simp [hd]))]
      have hnd : sepNonDash line2 c = true := by
        unfold sepNonDash
        rw [hget]
        simp only [Option.getD_some, ne_eq, decide_not, Bool.not_eq_true',
          decide_eq_false_iff_not, Decidable.not_not]
        exact hdash
      rw [List.filter_cons_of_pos (by simp [hnd])]
      rw [buildCols]
      simp

/-- C3 amended: whenever the separator line covers the header line, the scan
produces EXACTLY one column per position other than 0, strictly inside the
header, whose separator character is not a dash, in increasing order; each
column is named by the trimmed header slice from the previous recorded
position (initially 0) to its own and carries those offsets.  Since every
recorded position is strictly inside the line, no final column ending at the
line length exists, so a trailing field whose separator run reaches the end
of the line (LAT in the cited example, see the counterexample) is never
emitted. -/
theorem C3_columns_amended :
    ∀ (line1 line2 : String), line1.data.length ≤ line2.data.length →
      column_metadata line1 line2 =
        .ok (buildCols line1.data (colPositions line1.data line2.data) 0) := by
  intro line1 line2 hlen
  unfold column_metadata colPositions
  cases hL : line1.data.length with
  | zero =>
    simp [columnMetaGo, buildCols]
  | succ nn =>
    rw [List.range_succ_eq_map]
    have hmem : ∀ c ∈ (List.range nn).map Nat.succ, c ≠ 0 ∧ c < line2.data.length := by
      intro c hc
      rcases List.mem_map.mp hc with ⟨k, hk, rfl⟩
      have hk2 : k < nn := List.mem_range.mp hk
      constructor
      · exact Nat.succ_ne_zero k
      · omega
    rw [columnMetaGo, if_pos rfl]
    rw [columnMetaGo_spec line1.data line2.data ((List.range nn).map Nat.succ) 0 [] hmem]
    simp

/-- Witness for C3: the characterization applied to the cited example. -/
theorem C3_columns_amended_witness :
    column_metadata "NAME ST  LAT" "---- --  ---" =
      .ok (buildCols ("NAME ST  LAT" : String).data
            (colPositions ("NAME ST  LAT" : String).data ("---- --  ---" : String).data) 0) :=
  C3_columns_amended "NAME ST  LAT" "---- --  ---" (by decide)

/-- A line on which metarLine raises makes the whole Metar.parse loop fail,
whatever the other lines contain. -/
lemma metarGo_err_of_mem (allow : List String) :
    ∀ (lines : List String) (acc : List (String × MetarRec)) (line : String) (e : PyErr),
      line ∈ lines → metarLine allow line = .error e →
      ∀ r, metarGo allow lines acc ≠ .ok r := by
  intro lines
  induction lines with
  | nil => intro acc line e hmem; cases hmem
  | cons l ls ih =>
    intro acc line e hmem herr r hok
    rw [metarGo] at hok
    rcases List.mem_cons.mp hmem with rfl | hmem2
    · rw [herr] at hok; cases hok
    · rcases hl : metarLine allow l with e2 | o <;> rw [hl] at hok
      · cases hok
      · cases o with
        | none =>
          dsimp only at hok
          exact ih acc line e hmem2 herr r hok
        | some kv =>
          dsimp only at hok
          exact ih _ line e hmem2 herr r hok

/-- C4 amended: a malformed coordinate (non-numeric or empty degree
component) does make convert fail with ValueError, but the METAR normalizer
does not skip the offending record: the error propagates, so a batch one of
whose lines raises never yields a parsed record set; the whole batch is
aborted instead. -/
theorem C4_error_handling_amended :
    (∀ (s spacer : String),
      pyInt ((pySplitS (pyDropLast s) spacer).headD "") = .error .valueError →
      dms_to_dec s spacer = .error .valueError)
    ∧ (∀ (allow : List String) (locations line : String) (e : PyErr),
      line ∈ pyLinesLF locations → metarLine allow line = .error e →
      ∀ r, metar_parse allow locations ≠ .ok r) := by
  constructor
  · intro s spacer h
    unfold dms_to_dec dms_core
    rw [h]
  · intro allow locations line e hmem herr r
    exact metarGo_err_of_mem allow (pyLinesLF locations) [] line e hmem herr r

/-- Witness for C4: the malformed latitude XXN fails with ValueError, and the
batch whose first admitted line carries the malformed latitude ABC never
produces a record set. -/
theorem C4_error_handling_amended_witness :
    dms_to_dec "XXN" "-" = .error .valueError
    ∧ metar_parse ["AAAA", "BBBB"] metarBadBatch ≠ .ok [] :=
  ⟨C4_error_handling_amended.1 "XXN" "-" (by with_unfolding_all decide),
   C4_error_handling_amended.2 ["AAAA", "BBBB"] metarBadBatch
     "BBBB;1;2;Loc;US;C;5;ABC;087-59W;x" .valueError
     (by with_unfolding_all decide) (by with_unfolding_all decide) []⟩

/-- The computable floor of a rational in [0, 1) is 0. -/
lemma qfloor_eq_zero (q : ℚ) (h0 : 0 ≤ q) (h1 : q < 1) : qfloor q = 0 := by
  have hn : 0 ≤ q.num := Rat.num_nonneg.mpr h0
  have hd : q.num < (q.den : Int) := by
    exact_mod_cast Rat.lt_one_iff_num_lt_denom.mp h1
  unfold qfloor
  rw [Int.fdiv_eq_ediv _ (by positivity)]
  exact Int.ediv_eq_zero_of_lt hn hd

/-- For a double value in [0, 1), str(value)[2:5] is exactly the first at
most three digits of its shortest round-trip fraction block. -/
lemma slice25_pyStrFloat (q : ℚ) (h0 : 0 ≤ q) (h1 : q < 1) :
    pySlice25 (pyStrFloat q) = take3 (frac64Digits q) := by
  unfold pyStrFloat pySlice25 take3
  rw [qfloor_eq_zero q h0 h1]
  rw [show fracPart q = q from by unfold fracPart; rw [qfloor_eq_zero q h0 h1]; ring]
  rw [show toString (0 : Int) = "0" from rfl]
  simp only [String.data_append]
  rfl

/-- C2 amended: for well-formed degree, minute and optional second
components the converter returns the degree text, a decimal point, and the
first AT MOST three digits of the shortest decimal representation of the
binary64 double the program computes for minutes/60 (+ seconds/3600, with
the double roundings of the source), with a minus sign exactly for S or W.
This text is the exact truncation of the fraction on the whole minutes-only
path (third conjunct, all sixty minute values), and on the cited examples
41-20-15N → 41.337 and 87-59W → -87.983; but it can carry fewer than three
digits (41-30N → 41.5, the counterexample), and on a few second-bearing
inputs binary rounding lands one below the exact truncation: 41-2-6N →
41.034 while the exact value 0.035 truncates to 035. -/
theorem C2_truncation_amended :
    (∀ (sd sm ss hemi : String) (d : Int) (m s : ℚ),
      pyInt sd = .ok d → pyFloat sm = .ok m → pyFloat ss = .ok s →
      0 ≤ fl64 (fl64 (fl64 m / 60) + fl64 (fl64 s / 3600)) →
      fl64 (fl64 (fl64 m / 60) + fl64 (fl64 s / 3600)) < 1 →
      dms_core [sd, sm, ss] hemi =
        .ok ((if hemi = "S" ∨ hemi = "W" then "-" else "") ++ toString d ++ "."
              ++ take3 (frac64Digits (fl64 (fl64 (fl64 m / 60) + fl64 (fl64 s / 3600))))))
    ∧ (∀ (sd sm hemi : String) (d : Int) (m : ℚ),
      pyInt sd = .ok d → pyFloat sm = .ok m →
      0 ≤ fl64 (fl64 m / 60) → fl64 (fl64 m / 60) < 1 →
      dms_core [sd, sm] hemi =
        .ok ((if hemi = "S" ∨ hemi = "W" then "-" else "") ++ toString d ++ "."
              ++ take3 (frac64Digits (fl64 (fl64 m / 60)))))
    ∧ (∀ m : Fin 60,
        take3 (frac64Digits (fl64 (fl64 (m : ℚ) / 60))) =
          take3 (decFracDigits ((m : ℚ) / 60)))
    ∧ dms_to_dec "41-2-6N" "-" = .ok "41.034"
    ∧ take3 (decFracDigits ((2 : ℚ) / 60 + 6 / 3600)) = "035"
    ∧ dms_to_dec "87-59W" "-" = .ok "-87.983" := by
  refine ⟨?_, ?_, by with_unfolding_all decide, by with_unfolding_all decide,
    by with_unfolding_all decide, by with_unfolding_all decide⟩
  · intro sd sm ss hemi d m s hd hm hs hq0 hq1
    unfold dms_core
    rw [show ([sd, sm, ss].headD "") = sd from rfl, hd]
    dsimp only
    rw [show ([sd, sm, ss].getD 1 "") = sm from rfl, hm]
    dsimp only
    rw [show ([sd, sm, ss].getD 2 "") = ss from rfl, hs]
    dsimp only
    rw [if_pos (show 1 < [sd, sm, ss].length by simp)]
    rw [if_pos (show 2 < [sd, sm, ss].length by simp)]
    dsimp only
    rw [slice25_pyStrFloat _ hq0 hq1]
  · intro sd sm hemi d m hd hm hq0 hq1
    unfold dms_core
    rw [show ([sd, sm].headD "") = sd from rfl, hd]
    dsimp only
    rw [show ([sd, sm].getD 1 "") = sm from rfl, hm]
    dsimp only
    rw [if_pos (show 1 < [sd, sm].length by simp)]
    rw [if_neg (show ¬(2 < [sd, sm].length) by simp)]
    dsimp only
    rw [slice25_pyStrFloat _ hq0 hq1]

/-- Witness for C2 on the cited example: 41 degrees 20 minutes 15 seconds
north converts to 41.337. -/
theorem C2_truncation_amended_witness :
    dms_core ["41", "20", "15"] "N" = .ok "41.337" := by
  have h := C2_truncation_amended.1 "41" "20" "15" "N" 41 20 15
    (by with_unfolding_all decide) (by with_unfolding_all decide)
    (by with_unfolding_all decide) (by with_unfolding_all decide)
    (by with_unfolding_all decide)
  rw [h]
  with_unfolding_all decide

/-- One loop iteration of best(): a record that does not raise either
improves the running state (strict inequality on the integer distance) or
leaves it unchanged. -/
lemma bestStep_eq (dist : ℚ → ℚ → ℚ → ℚ → Int) (s : Int × Option Loc) (loc : Loc)
    (h : locOk loc) :
    bestStep dist s loc =
      .ok (if passes loc = true ∧ locDist dist loc < s.1
           then (locDist dist loc, some loc) else s) := by
  by_cases hempty : loc.Latitude = "" ∨ loc.Longitude = ""
  · have hcp : coordsPresent loc = false := by
      unfold coordsPresent
      rcases hempty with h1 | h1 <;> simp [h1]
    have hp : passes loc = false := by
      unfold passes
      rw [hcp]
      rfl
    unfold bestStep
    rw [if_pos hempty]
    rw [if_neg (show ¬(passes loc = true ∧ locDist dist loc < s.1) by simp [hp])]
  · have hpres : coordsPresent loc = true := by
      unfold coordsPresent
      push_neg at hempty
      simp [hempty.1, hempty.2]
    have hsome := h hpres
    rcases hlat : pyFloat loc.Latitude with e | lat
    · exfalso
      unfold parsedCoords at hsome
      rcases hlon : pyFloat loc.Longitude with e2 | lon <;>
        rw [hlat, hlon] at hsome <;> simp at hsome
    · rcases hlon : pyFloat loc.Longitude with e2 | lon
      · exfalso
        unfold parsedCoords at hsome
        rw [hlat, hlon] at hsome
        simp at hsome
      · have hpc : parsedCoords loc = some (lat, lon) := by
          unfold parsedCoords
          rw [hlat, hlon]
      
        have hpass : passes loc = rough_distance 5 lat lon := by
          unfold passes
          rw [hpc, hpres]
          rfl
        have hld : locDist dist loc = dist LATITUDE LONGITUDE lat lon := by
          unfold locDist
          rw [hpc]
        have hstep : bestStep dist s loc =
            (if rough_distance 5 lat lon = true then
              (if dist LATITUDE LONGITUDE lat lon < s.1 then
                .ok (dist LATITUDE LONGITUDE lat lon, some loc)
              else .ok s)
            else .ok s) := by
          unfold bestStep
          rw [if_neg hempty, hlat, hlon]
        rw [hstep, hpass, hld]
        by_cases hr : rough_distance 5 lat lon = true
        · rw [if_pos hr]
          by_cases hdlt : dist LATITUDE LONGITUDE lat lon < s.1
          · rw [if_pos hdlt, if_pos ⟨hr, hdlt⟩]
          · rw [if_neg hdlt, if_neg (fun hc => hdlt hc.2)]
        · rw [if_neg hr, if_neg (fun hc => hr hc.1)]

/-- Unfolding of the best() loop over one non-raising record. -/
lemma bestFold_cons_ok (dist : ℚ → ℚ → ℚ → ℚ → Int) (loc : Loc) (rest : List Loc)
    (s : Int × Option Loc) (h : locOk loc) :
    bestFold dist (loc :: rest) s =
      bestFold dist rest (if passes loc = true ∧ locDist dist loc < s.1
        then (locDist dist loc, some loc) else s) := by
  rw [bestFold, bestStep_eq dist s loc h]

/-- Records whose distance is at least the running minimum never change the
state of the best() loop. -/
lemma bestFold_stable (dist : ℚ → ℚ → ℚ → ℚ → Int) :
    ∀ (b : List Loc) (s : Int × Option Loc),
    (∀ l ∈ b, locOk l) → (∀ l ∈ b, passes l = true → s.1 ≤ locDist dist l) →
    bestFold dist b s = .ok s := by
  intro b
  induction b with
  | nil => intro s _ _; rfl
  | cons loc rest ih =>
    intro s hOk hge
    rw [bestFold_cons_ok dist loc rest s (hOk loc (by simp))]
    rw [if_neg (show ¬(passes loc = true ∧ locDist dist loc < s.1) from
      fun hc => absurd hc.2 (not_lt.mpr (hge loc (by simp) hc.1)))]
    exact ih s (fun l hl => hOk l (by simp [hl])) (fun l hl hp => hge l (by simp [hl]) hp)

/-- The best() loop over a concatenation runs the two parts in sequence. -/
lemma bestFold_append (dist : ℚ → ℚ → ℚ → ℚ → Int) :
    ∀ (a b : List Loc) (s : Int × Option Loc),
    bestFold dist (a ++ b) s =
      (match bestFold dist a s with
       | .error e => .error e
       | .ok s2 => bestFold dist b s2) := by
  intro a
  induction a with
  | nil => intro b s; rfl
  | cons loc rest ih =>
    intro b s
    rw [List.cons_append, bestFold, bestFold]
    rcases hs : bestStep dist s loc with e | s2
    · rfl
    · exact ih b s2

/-- If every passing record of a prefix is strictly farther than d, the
running minimum stays strictly above d over that prefix. -/
lemma bestFold_keeps_gt (dist : ℚ → ℚ → ℚ → ℚ → Int) (d : Int) :
    ∀ (a : List Loc) (s : Int × Option Loc),
    (∀ l ∈ a, locOk l) → (∀ l ∈ a, passes l = true → d < locDist dist l) →
    d < s.1 → ∃ s2, bestFold dist a s = .ok s2 ∧ d < s2.1 := by
  intro a
  induction a with
  | nil => intro s _ _ hd; exact ⟨s, rfl, hd⟩
  | cons loc rest ih =>
    intro s hOk hgt hd
    rw [bestFold_cons_ok dist loc rest s (hOk loc (by simp))]
    by_cases hc : passes loc = true ∧ locDist dist loc < s.1
    · rw [if_pos hc]
      exact ih (locDist dist loc, some loc) (fun l hl => hOk l (by simp [hl]))
        (fun l hl hp => hgt l (by simp [hl]) hp) (hgt loc (by simp) hc.1)
    · rw [if_neg hc]
      exact ih s (fun l hl => hOk l (by simp [hl]))
        (fun l hl hp => hgt l (by simp [hl]) hp) hd

/-- Main invariant of the best() loop: the final state either is the initial
state with no passing record below the initial minimum, or holds a passing
input record of minimal distance (the strict comparison keeps the first
minimiser). -/
lemma bestFold_min (dist : ℚ → ℚ → ℚ → ℚ → Int) :
    ∀ (many : List Loc) (cd : Int) (cl : Option Loc) (res : Int × Option Loc),
    (∀ l ∈ many, locOk l) →
    bestFold dist many (cd, cl) = .ok res →
    (res = (cd, cl) ∧ ∀ l ∈ many, passes l = true → cd ≤ locDist dist l) ∨
    (∃ r, res.2 = some r ∧ r ∈ many ∧ passes r = true ∧ res.1 = locDist dist r ∧
      locDist dist r < cd ∧ ∀ l ∈ many, passes l = true → locDist dist r ≤ locDist dist l) := by
  intro many
  induction many with
  | nil =>
    intro cd cl res _ hrun
    injection hrun with hr
    exact Or.inl ⟨hr.symm, by simp⟩
  | cons loc rest ih =>
    intro cd cl res hOk hrun
    rw [bestFold_cons_ok dist loc rest (cd, cl) (hOk loc (by simp))] at hrun
    by_cases hc : passes loc = true ∧ locDist dist loc < (cd, cl).1
    · rw [if_pos hc] at hrun
      rcases ih (locDist dist loc) (some loc) res (fun l hl => hOk l (by simp [hl])) hrun with
        ⟨hres, hge⟩ | ⟨r, hr2, hrmem, hrp, hr1, hrlt, hrmin⟩
      · refine Or.inr ⟨loc, by rw [hres], by simp, hc.1, by rw [hres], hc.2, ?_⟩
        intro l hl hp
        rcases List.mem_cons.mp hl with rfl | hl2
        · exact le_refl _
        · exact hge l hl2 hp
      · refine Or.inr ⟨r, hr2, by simp [hrmem], hrp, hr1, lt_trans hrlt hc.2, ?_⟩
        intro l hl hp
        rcases List.mem_cons.mp hl with rfl | hl2
        · exact le_of_lt hrlt
        · exact hrmin l hl2 hp
    · rw [if_neg hc] at hrun
      rcases ih cd cl res (fun l hl => hOk l (by simp [hl])) hrun with
        ⟨hres, hge⟩ | ⟨r, hr2, hrmem, hrp, hr1, hrlt, hrmin⟩
      · refine Or.inl ⟨hres, ?_⟩
        intro l hl hp
        rcases List.mem_cons.mp hl with rfl | hl2
        · have hnot : ¬(locDist dist l < cd) := fun hx => hc ⟨hp, hx⟩
          omega
        · exact hge l hl2 hp
      · refine Or.inr ⟨r, hr2, by simp [hrmem], hrp, hr1, hrlt, ?_⟩
        intro l hl hp
        rcases List.mem_cons.mp hl with rfl | hl2
        · have hnot : ¬(locDist dist l < cd) := fun hx => hc ⟨hp, hx⟩
          omega
        · exact hrmin l hl2 hp

/-- Records with an empty coordinate field are skipped: dropping them from
the candidate list does not change the best() loop at all. -/
lemma bestFold_filter (dist : ℚ → ℚ → ℚ → ℚ → Int) :
    ∀ (many : List Loc) (s : Int × Option Loc),
    bestFold dist (many.filter coordsPresent) s = bestFold dist many s := by
  intro many
  induction many with
  | nil => intro s; rfl
  | cons loc rest ih =>
    intro s
    by_cases hc : coordsPresent loc = true
    · rw [List.filter_cons_of_pos hc, bestFold, bestFold]
      rcases hs : bestStep dist s loc with e | s2
      · rfl
      · exact ih s2
    · have hempty : loc.Latitude = "" ∨ loc.Longitude = "" := by
        unfold coordsPresent at hc
        rcases hl1 : loc.Latitude == "" with _ | _
        · rcases hl2 : loc.Longitude == "" with _ | _
          · exfalso; apply hc; rw [hl1, hl2]; rfl
          · exact Or.inr (by simpa using hl2)
        · exact Or.inl (by simpa using hl1)
      have hskip : bestStep dist s loc = .ok s := by
        unfold bestStep
        rw [if_pos hempty]
      rw [List.filter_cons_of_neg (by simpa using hc), bestFold, hskip, ih]

instance locOk_decidable (loc : Loc) : Decidable (locOk loc) := by
  unfold locOk
  infer_instance

/-- C8: whenever best() returns a record, that record is one of the input
records whole (never a merge of fields from several records, the candidate
schema being the uniform DictReader schema), it passed the Stage 1
prefilter, and its integer distance (tracked from the sentinel 100000 and
replaced only on strict improvement) is minimal among all passing
candidates; this holds for every integer-valued distance function, hence for
the haversine distance the code uses. -/
theorem C8_whole_record_min (dist : ℚ → ℚ → ℚ → ℚ → Int) (many : List Loc) (r : Loc)
    (hOk : ∀ l ∈ many, locOk l)
    (h : best dist many = .ok (some r)) :
    r ∈ many ∧ passes r = true ∧
      ∀ l ∈ many, passes l = true → locDist dist r ≤ locDist dist l := by
  unfold best at h
  rcases hf : bestFold dist many (100000, none) with e | res <;> rw [hf] at h
  · cases h
  · injection h with h2
    rcases bestFold_min dist many 100000 none res hOk hf with
      ⟨hres, _⟩ | ⟨x, hx2, hxmem, hxp, _, _, hmin⟩
    · rw [hres] at h2; cases h2
    · rw [hx2] at h2
      injection h2 with h3
      subst h3
      exact ⟨hxmem, hxp, hmin⟩

/-- C9: best() returns None exactly when no candidate with usable
coordinates passes the Stage 1 prefilter (given that parsed distances stay
under the 100000 sentinel, true of any point on Earth), and candidates with
an empty latitude or longitude field are excluded outright: filtering them
away does not change the result, so they are never coerced to coordinate
0. -/
theorem C9_no_match (dist : ℚ → ℚ → ℚ → ℚ → Int) (many : List Loc)
    (hOk : ∀ l ∈ many, locOk l)
    (hsent : ∀ l ∈ many, passes l = true → locDist dist l < 100000) :
    (best dist many = .ok none ↔ ∀ l ∈ many, passes l = false)
    ∧ best dist many = best dist (many.filter coordsPresent) := by
  constructor
  · constructor
    · intro h
      unfold best at h
      rcases hf : bestFold dist many (100000, none) with e | res <;> rw [hf] at h
      · cases h
      · injection h with h2
        rcases bestFold_min dist many 100000 none res hOk hf with
          ⟨hres, hge⟩ | ⟨x, hx2, _, _, _, _, _⟩
        · intro l hl
          by_contra hp
          rw [Bool.not_eq_false] at hp
          have ha := hge l hl hp
          have hb := hsent l hl hp
          omega
        · rw [hx2] at h2
          cases h2
    · intro hall
      unfold best
      rw [bestFold_stable dist many (100000, none) hOk
        (fun l hl hp => absurd hp (by simp [hall l hl]))]
  · unfold best
    rw [bestFold_filter dist many (100000, none)]

/-- C6: with two passing candidates at the same integer distance d (and no
earlier candidate at distance d or less, no later one below d), best()
returns the one appearing earlier in the sequence: the strict < comparison
makes ties first-seen-wins, for every integer-valued distance function. -/
theorem C6_tie_first_seen (dist : ℚ → ℚ → ℚ → ℚ → Int) (l1 l2 l3 : List Loc)
    (c1 c2 : Loc) (d : Int)
    (hOk : ∀ l ∈ l1 ++ c1 :: (l2 ++ c2 :: l3), locOk l)
    (h1 : passes c1 = true) (hd1 : locDist dist c1 = d) (hsmall : d < 100000)
    (h2 : passes c2 = true) (hd2 : locDist dist c2 = d)
    (hbefore : ∀ l ∈ l1, passes l = true → d < locDist dist l)
    (hafter : ∀ l ∈ l2 ++ c2 :: l3, passes l = true → d ≤ locDist dist l) :
    best dist (l1 ++ c1 :: (l2 ++ c2 :: l3)) = .ok (some c1) := by
  obtain ⟨s1, hs1, hgt⟩ := bestFold_keeps_gt dist d l1 ((100000 : Int), none)
    (fun l hl => hOk l (List.mem_append.mpr (Or.inl hl))) hbefore hsmall
  unfold best
  rw [bestFold_append dist l1 (c1 :: (l2 ++ c2 :: l3)) (100000, none), hs1]
  show (match bestFold dist (c1 :: (l2 ++ c2 :: l3)) s1 with
        | .error e => .error e
        | .ok s => .ok s.2) = Except.ok (some c1)
  rw [bestFold_cons_ok dist c1 (l2 ++ c2 :: l3) s1 (hOk c1 (by simp))]
  rw [if_pos ⟨h1, show locDist dist c1 < s1.1 by rw [hd1]; exact hgt⟩]
  rw [hd1]
  rw [bestFold_stable dist (l2 ++ c2 :: l3) (d, some c1)
    (fun l hl => hOk l (by simp only [List.mem_append, List.mem_cons] at hl ⊢; tauto))
    (fun l hl hp => hafter l hl hp)]

/-- Witness for C6: two records at identical coordinates, constant distance
7; the first one is returned. -/
theorem C6_tie_first_seen_witness :
    best distConst [locWitA, locWitB] = .ok (some locWitA) := by
  have h := C6_tie_first_seen distConst [] [] [] locWitA locWitB 7
    (by with_unfolding_all decide) (by with_unfolding_all decide)
    (by with_unfolding_all decide) (by with_unfolding_all decide)
    (by with_unfolding_all decide) (by with_unfolding_all decide)
    (by with_unfolding_all decide) (by with_unfolding_all decide)
  simpa using h

/-- Witness for C8: the returned record is the input record itself. -/
theorem C8_whole_record_min_witness : locWitA ∈ [locWitA] :=
  (C8_whole_record_min distConst [locWitA] locWitA (by with_unfolding_all decide)
    (by with_unfolding_all decide)).1

/-- Witness for C9: a single candidate with an empty Latitude yields None. -/
theorem C9_no_match_witness : best distConst [locWitEmpty] = .ok none :=
  (C9_no_match distConst [locWitEmpty] (by with_unfolding_all decide)
    (by with_unfolding_all decide)).1.mpr (by with_unfolding_all decide)
